import Mathlib

/-!
Verification of the Mp3 player A/B-loop application (src/main.py) against its
natural-language specification.  The Python code is shallowly embedded below:
pure fragments become Lean functions, the stateful handlers become explicit
state-passing functions, and the external collaborators (Qt media engine,
pydub decoder, webvtt parser, filesystem) are modelled as an environment of
abstract functions.  Milliseconds are `Int` (Python ints).
-/

namespace Mp3Player

/-- Python truthiness of an optional integer: `None` and `0` are falsy.
The source guards marker operations with `if self.pos_loop_b:` /
`elif self.pos_loop_a:`, which is this test. -/
def truthy : Option Int → Bool
  | none => false
  | some v => v != 0

/-- The A/B loop marker fields of `MainWindow`: `self.pos_loop_a` and
`self.pos_loop_b`, each `None` or a position in ms. -/
structure LoopState where
  pos_loop_a : Option Int
  pos_loop_b : Option Int
deriving DecidableEq, Repr

/-- The empty marker, as initialised in `MainWindow.__init__`. -/
def LoopState.empty : LoopState := ⟨none, none⟩

/-- `MainWindow.set_ab_loop` (src/main.py:392-405): the A/B-loop toggle.
`position` is `self.player.position()`.  Returns the new marker state and the
seek command issued to the engine (`self.player.setPosition(self.pos_loop_a)`
in the second branch), `none` when no seek is issued.  The progress-bar
repaint at the end is presentation only and is not modelled. -/
def set_ab_loop (position : Int) (s : LoopState) : LoopState × Option Int :=
  if truthy s.pos_loop_b then
    ({ pos_loop_a := none, pos_loop_b := none }, none)
  else if truthy s.pos_loop_a then
    ({ s with pos_loop_b := some position }, s.pos_loop_a)
  else
    ({ s with pos_loop_a := some position }, none)

/-- `MainWindow.adjust_ab_loop` (src/main.py:407-411): when `self.pos_loop_b`
is truthy, adds `offset_ms` to both markers; otherwise does nothing.
(`Option.map` covers the in-program states: the source would raise on
`None + int`, but `pos_loop_b` is only ever set while `pos_loop_a` is set.) -/
def adjust_ab_loop (offset_ms : Int) (s : LoopState) : LoopState :=
  if truthy s.pos_loop_b then
    { pos_loop_a := s.pos_loop_a.map (fun v => v + offset_ms),
      pos_loop_b := s.pos_loop_b.map (fun v => v + offset_ms) }
  else s

/-- The loop-enforcement decision of `MainWindow.qmp_position_changed`
(src/main.py:520-525): the seek command sent to the engine by one
position-poll callback (`none` when no seek is issued).  The progress-bar,
elapsed-time and lyrics updates of the handler are modelled separately by
`update_media_pos`. -/
def qmp_position_changed (s : LoopState) (position_ms duration_ms : Int) :
    Option Int :=
  if truthy s.pos_loop_b then
    if position_ms = duration_ms ∨ s.pos_loop_b.getD 0 < position_ms then
      s.pos_loop_a
    else none
  else none

/-- The guard and slice command of `MainWindow.save_ab_loop`
(src/main.py:413-428): returns `none` when the handler returns early
(`if self.pos_loop_b is None: return` — an `is None` test, not truthiness),
otherwise the bounds `(pos_loop_a, pos_loop_b)` of the exported slice
`self.mp3_data[self.pos_loop_a:self.pos_loop_b]`. -/
def save_ab_loop (s : LoopState) : Option (Option Int × Int) :=
  match s.pos_loop_b with
  | none => none
  | some b => some (s.pos_loop_a, b)

/-- `MainWindow.navigate_media` (src/main.py:465-472): the position handed to
`self.player.setPosition` for a relative move of `ms` from `position_ms` in a
track of length `duration_ms`. -/
def navigate_media (ms position_ms duration_ms : Int) : Int :=
  if ms < 0 then max 0 (position_ms + ms) else min duration_ms (position_ms + ms)

/-- `MainWindow.set_media_position` (src/main.py:535-538): the slot receiving
a progress-bar click forwards `position_ms` to `self.player.setPosition`
unchanged. -/
def set_media_position (position_ms : Int) : Int := position_ms

/-- Modelled from the spec (not from the source): the clamping
`min(max(position_ms, 0), duration)` that §4.1 claims `seek` performs before
forwarding to the engine.  Used to compare the claimed and actual behavior. -/
def seek_clamped_spec (position_ms duration_ms : Int) : Int :=
  min (max position_ms 0) duration_ms

/-! ### Lyric timeline (`LyricsDisplay`) -/

/-- The loop of CPython's `bisect.bisect_right(a, x)` (used at
src/main.py:132): `while lo < hi: mid = (lo+hi)//2; if x < a[mid]: hi = mid
else: lo = mid+1; return lo`.  Out-of-range indexing defaults to `0`; the
loop keeps `mid < hi ≤ len a`, so the default is never consulted in the
calls made by the program. -/
def bisect_right_aux (a : List Int) (x : Int) (lo hi : Nat) : Nat :=
  if h : lo < hi then
    if x < a.getD ((lo + hi) / 2) 0 then bisect_right_aux a x lo ((lo + hi) / 2)
    else bisect_right_aux a x ((lo + hi) / 2 + 1) hi
  else lo
termination_by hi - lo
decreasing_by
  · have h1 : lo * 2 ≤ lo + hi := by omega
    have h2 : lo ≤ (lo + hi) / 2 := (Nat.le_div_iff_mul_le (by norm_num)).mpr h1
    have h3 : (lo + hi) / 2 < hi := (Nat.div_lt_iff_lt_mul (by norm_num)).mpr (by omega)
    omega
  · have h3 : (lo + hi) / 2 < hi := (Nat.div_lt_iff_lt_mul (by norm_num)).mpr (by omega)
    omega

/-- `bisect.bisect_right(a, x)` with the default bounds `lo=0, hi=len(a)`. -/
def bisect_right (a : List Int) (x : Int) : Nat :=
  bisect_right_aux a x 0 a.length

/-- `LyricsDisplay.update_media_pos` (src/main.py:129-134), as the text shown
by the display after the call: with no lyrics the handler returns without
touching the (initially empty) display, otherwise it shows
`self.lyrics[max(bisect_right(self.start_time_lyrics, pos_ms) - 1, 0)]`.
`starts`/`texts` are `self.start_time_lyrics`/`self.lyrics`, which the source
builds in lockstep (equal lengths). -/
def update_media_pos (starts : List Int) (texts : List String) (pos_ms : Int) :
    String :=
  if texts.isEmpty then ""
  else
    let idx : Int := max ((bisect_right starts pos_ms : Int) - 1) 0
    texts.getD idx.toNat ""

/-- Modelled from the spec (not from the source): the index of the rightmost
cue whose `start_ms <= position_ms`, if any. -/
def rightmost_cue_idx (starts : List Int) (pos_ms : Int) : Option Nat :=
  ((List.range starts.length).filter (fun i => starts.getD i 0 ≤ pos_ms)).getLast?

/-- Modelled from the spec (not from the source): §4.3 `lookup(position_ms)`
— the text of the rightmost cue whose `start_ms <= position_ms`, or the first
cue's text if `position_ms` precedes all cues, or `""` with no cues. -/
def lookup_spec (starts : List Int) (texts : List String) (pos_ms : Int) :
    String :=
  if texts.isEmpty then ""
  else
    match rightmost_cue_idx starts pos_ms with
    | some i => texts.getD i ""
    | none => texts.getD 0 ""

/-- Python's `l[::2]` slice, used by `read_vtt` (src/main.py:124-125) to keep
every second cue entry. -/
def everySecond {α : Type} : List α → List α
  | [] => []
  | [a] => [a]
  | a :: _ :: rest => a :: everySecond rest

/-! ### Track loading (`MainWindow.load_mp3`, `stop`) -/

/-- The external collaborators of the controller: the filesystem
(`osp.isfile`), the decoder (`AudioSegment.from_file`, `none` meaning the
call raises), and the cue parser (`webvtt.read`, a list of
(start-time-ms, text) pairs).  Decoded audio is abstracted to a `Nat`
handle. -/
structure Env where
  isfile : String → Bool
  decode : String → Option Nat
  vtt_cues : String → List (Int × String)

/-- `path[:-3] + 'vtt'` (src/main.py:336): the sibling lyric-file path. -/
def vtt_path (path : String) : String := path.dropRight 3 ++ "vtt"

/-- `LyricsDisplay.read_vtt` (src/main.py:109-127): resets both cue lists,
returns them empty when the file is missing, otherwise parses the cues,
keeps every second entry of both lists, and then displays
`self.lyrics[0]` — which raises IndexError when the file exists but holds
zero cues.  `.error` is that raise; either constructor carries the
(start_time_lyrics, lyrics) attribute values at the exit, since the list
assignments happen before the indexing. -/
def read_vtt (env : Env) (path : String) :
    Except (List Int × List String) (List Int × List String) :=
  if env.isfile path then
    let cues := env.vtt_cues path
    let starts := everySecond (cues.map Prod.fst)
    let texts := everySecond (cues.map Prod.snd)
    match texts with
    | [] => .error (starts, texts)
    | _ :: _ => .ok (starts, texts)
  else .ok ([], [])

/-- The (start_time_lyrics, lyrics) attribute state after a `read_vtt` call,
whether or not it raised. -/
def vtt_result :
    Except (List Int × List String) (List Int × List String) →
      List Int × List String
  | .ok lyr => lyr
  | .error lyr => lyr

/-- The `MainWindow` fields touched by `load_mp3` and `stop`:
`self.path_media`, `self.mp3_data`, the player media (the wav buffer handed
to `self.player.setMedia`), the loop markers, and the lyric timeline held by
`self.display_lyrics`. -/
structure PlayerState where
  path_media : String
  mp3_data : Option Nat
  player_media : Option Nat
  pos_loop_a : Option Int
  pos_loop_b : Option Int
  lyrics_starts : List Int
  lyrics_texts : List String
deriving DecidableEq, Repr

/-- `MainWindow.load_mp3` (src/main.py:330-344).  A missing file is a silent
no-op.  Otherwise the source first assigns `self.path_media = path`, then
replaces the lyric timeline via `read_vtt` (whose IndexError on an existing
zero-cue file propagates out of the method with the path and timeline
already mutated), and only then decodes; a decode failure likewise raises
(`.error`) with those mutations already applied.  On success the decoded
audio is stored and (as wav) becomes the player media. -/
def load_mp3 (env : Env) (path : String) (s : PlayerState) :
    Except PlayerState PlayerState :=
  if env.isfile path then
    let s1 := { s with path_media := path }
    match read_vtt env (vtt_path path) with
    | .error lyr =>
        .error { s1 with lyrics_starts := lyr.1, lyrics_texts := lyr.2 }
    | .ok lyr =>
        let s2 := { s1 with lyrics_starts := lyr.1, lyrics_texts := lyr.2 }
        match env.decode path with
        | none => .error s2
        | some audio => .ok { s2 with mp3_data := some audio,
                                      player_media := some audio }
  else .ok s

/-- `MainWindow.stop` (src/main.py:444-454), restricted to the modelled
fields: clears `self.path_media` and both loop markers.  (Persisting the
resume position, stopping the engine and the timer, and the label/icon
updates touch no modelled field.) -/
def stop (s : PlayerState) : PlayerState :=
  { s with path_media := "", pos_loop_a := none, pos_loop_b := none }

/-! ### Recent files (`MainWindow.qmp_status_changed`) -/

/-- `MainWindow.max_recent_files` (src/main.py:138). -/
def max_recent_files : Nat := 10

/-- The recent-files update of `MainWindow.qmp_status_changed`
(src/main.py:500-508): `files.remove(path)` (first occurrence, no-op when
absent), `files.insert(0, path)`, `del files[max_recent_files:]`. -/
def touch_recent (files : List String) (path : String) : List String :=
  (path :: files.erase path).take max_recent_files

/-! ### Concrete fixtures used by counterexamples and witnesses -/

/-- The Python attribute state after a call that may raise: the mutations
made before the raise are visible on the object either way. -/
def except_state : Except PlayerState PlayerState → PlayerState
  | .ok s => s
  | .error s => s

/-- An environment in which every path exists, decoding always succeeds
(handle `1`) and every lyric file holds one begin/end cue pair — so a load
runs the whole success path, `self.lyrics[0]` included. -/
def envAll : Env :=
  { isfile := fun _ => true, decode := fun _ => some 1,
    vtt_cues := fun _ => [(0, "x"), (1, "y")] }

/-- An environment in which every path exists but decoding always raises;
lyric files hold one begin/end cue pair. -/
def envFail : Env :=
  { isfile := fun _ => true, decode := fun _ => none,
    vtt_cues := fun _ => [(0, "x"), (1, "y")] }

/-- A player state with track `a.mp3` loaded and a fully set loop marker. -/
def sLoaded : PlayerState :=
  { path_media := "a.mp3", mp3_data := some 0, player_media := some 0,
    pos_loop_a := some 5, pos_loop_b := some 7,
    lyrics_starts := [], lyrics_texts := [] }

/-- A player state with track `a.mp3` loaded, no loop marker, and a one-cue
lyric timeline. -/
def sPrior : PlayerState :=
  { path_media := "a.mp3", mp3_data := some 42, player_media := some 42,
    pos_loop_a := none, pos_loop_b := none,
    lyrics_starts := [100], lyrics_texts := ["old"] }

end Mp3Player

namespace Mp3Player

/-! ## C1: loop enforcement on a position poll -/

/-- C1 counterexample: with the marker fully set to (10000, 20000) in a
180000 ms track, a poll exactly at `position_ms = posB = 20000` issues no
seek — the source test `self.pos_loop_b < position_ms` is strict, so the
claimed trigger at `position_ms >= posB` (in particular `== posB`) is false. -/
theorem C1_counterexample :
    qmp_position_changed ⟨some 10000, some 20000⟩ 20000 180000 = none ∧
    (20000 : Int) ≥ 20000 := by
  exact ⟨rfl, le_refl _⟩

/-- C1 (amended): with the marker fully set and `posB ≠ 0`, a position poll
issues `seek(posA)` exactly when `position_ms == duration` or
`position_ms > posB` (strictly); a poll exactly at `posB` (with
`posB ≠ duration`) issues no seek. -/
theorem C1_loop_enforcement (a b position_ms duration_ms : Int) (hb : b ≠ 0) :
    qmp_position_changed ⟨some a, some b⟩ position_ms duration_ms =
      if position_ms = duration_ms ∨ b < position_ms then some a else none := by
  simp [qmp_position_changed, truthy, hb]

/-- C1 witness: the amended enforcement rule at the concrete marker
(10000, 20000), duration 180000, polled at 20001. -/
theorem C1_loop_enforcement_witness :
    qmp_position_changed ⟨some 10000, some 20000⟩ 20001 180000 =
      if (20001 : Int) = 180000 ∨ (20000 : Int) < 20001 then some 10000
      else none :=
  C1_loop_enforcement 10000 20000 20001 180000 (by decide)

/-! ## C2: the lyric lookup returns the rightmost cue at or before the
position -/

/-- Binary-search invariant of `bisect_right_aux` on a list sorted
non-decreasingly (sortedness given index-wise): starting from bounds
`lo ≤ hi ≤ |a|` such that everything before `lo` is `≤ x` and everything
from `hi` on is `> x`, the loop returns a split point with everything before
it `≤ x` and everything from it on `> x`.  Strong induction on `hi - lo`. -/
theorem bisect_right_aux_spec (a : List Int) (x : Int)
    (hsort : ∀ i j : Nat, i ≤ j → j < a.length → a.getD i 0 ≤ a.getD j 0) :
    ∀ n lo hi, hi - lo ≤ n → lo ≤ hi → hi ≤ a.length →
      (∀ i, i < lo → a.getD i 0 ≤ x) →
      (∀ i, hi ≤ i → i < a.length → x < a.getD i 0) →
      lo ≤ bisect_right_aux a x lo hi ∧ bisect_right_aux a x lo hi ≤ hi ∧
      (∀ i, i < bisect_right_aux a x lo hi → a.getD i 0 ≤ x) ∧
      (∀ i, bisect_right_aux a x lo hi ≤ i → i < a.length →
        x < a.getD i 0) := by
  intro n
  induction n with
  | zero =>
      intro lo hi hn hle hhi hinv1 hinv2
      have heq : lo = hi := by omega
      subst heq
      rw [bisect_right_aux]
      simp only [lt_irrefl, dite_false]
      exact ⟨le_refl _, le_refl _, hinv1, hinv2⟩
  | succ n ih =>
      intro lo hi hn hle hhi hinv1 hinv2
      rw [bisect_right_aux]
      by_cases h : lo < hi
      · simp only [h, dite_true]
        have hmidlo : lo ≤ (lo + hi) / 2 :=
          (Nat.le_div_iff_mul_le (by norm_num)).mpr (by omega)
        have hmidhi : (lo + hi) / 2 < hi :=
          (Nat.div_lt_iff_lt_mul (by norm_num)).mpr (by omega)
        by_cases hx : x < a.getD ((lo + hi) / 2) 0
        · simp only [hx, if_true]
          refine (ih lo ((lo + hi) / 2) (by omega) (by omega) (by omega)
            hinv1 ?_).imp ?_ ?_
          · intro i hi1 hi2
            exact lt_of_lt_of_le hx (hsort _ i hi1 hi2)
          · exact fun h => h
          · intro h; exact ⟨le_trans h.1 (le_of_lt hmidhi), h.2⟩
        · simp only [hx, if_false]
          refine (ih ((lo + hi) / 2 + 1) hi (by omega) (by omega) hhi
            ?_ hinv2).imp ?_ ?_
          · intro i hi1
            exact le_trans (hsort i _ (by omega) (by omega)) (not_lt.mp hx)
          · intro h; omega
          · exact fun h => h
      · have heq : lo = hi := by omega
        subst heq
        simp only [lt_irrefl, dite_false]
        exact ⟨le_refl _, le_refl _, hinv1, hinv2⟩

/-- `bisect_right a x` on a sorted list is the split point: it is at most
`|a|`, every element before it is `≤ x`, and every element from it on is
`> x`. -/
theorem bisect_right_spec (a : List Int) (x : Int)
    (hsorted : List.Sorted (· ≤ ·) a) :
    bisect_right a x ≤ a.length ∧
    (∀ i, i < bisect_right a x → a.getD i 0 ≤ x) ∧
    (∀ i, bisect_right a x ≤ i → i < a.length → x < a.getD i 0) := by
  have hsort : ∀ i j : Nat, i ≤ j → j < a.length →
      a.getD i 0 ≤ a.getD j 0 := by
    intro i j hij hj
    rcases Nat.eq_or_lt_of_le hij with rfl | hlt
    · exact le_refl _
    · rw [List.getD_eq_getElem _ _ (lt_trans hlt hj),
        List.getD_eq_getElem _ _ hj]
      exact List.pairwise_iff_getElem.mp hsorted i j _ _ hlt
  have h := bisect_right_aux_spec a x hsort a.length 0 a.length
    (by omega) (by omega) (le_refl _)
    (by intro i hi; omega)
    (by intro i hi1 hi2; omega)
  exact ⟨h.2.1, h.2.2⟩

/-- Filtering `range n` by a predicate that holds exactly below `k ≤ n`
yields `range k`. -/
theorem filter_range_eq_range (p : Nat → Bool) :
    ∀ n k : Nat, k ≤ n → (∀ i, i < n → (p i = true ↔ i < k)) →
      (List.range n).filter p = List.range k := by
  intro n
  induction n with
  | zero =>
      intro k hk _
      have : k = 0 := by omega
      subst this
      rfl
  | succ n ih =>
      intro k hk hp
      by_cases hkn : k = n + 1
      · subst hkn
        apply List.filter_eq_self.mpr
        intro i hi
        exact (hp i (List.mem_range.mp hi)).mpr (List.mem_range.mp hi)
      · have hk2 : k ≤ n := by omega
        have hpn : p n = false := by
          rcases Bool.eq_false_or_eq_true (p n) with h | h
          · exact absurd ((hp n (by omega)).mp h) (by omega)
          · exact h
        rw [List.range_succ, List.filter_append]
        simp only [List.filter_cons, hpn, Bool.false_eq_true, if_false,
          List.filter_nil, List.append_nil]
        exact ih k hk2 (fun i hi => hp i (by omega))

/-- On a sorted cue list the rightmost cue with `start_ms ≤ pos_ms` is the
one just before the `bisect_right` split point (absent when the split point
is 0, i.e. when `pos_ms` precedes all cues). -/
theorem rightmost_cue_idx_eq (starts : List Int) (pos_ms : Int)
    (hsorted : List.Sorted (· ≤ ·) starts) :
    rightmost_cue_idx starts pos_ms =
      if bisect_right starts pos_ms = 0 then none
      else some (bisect_right starts pos_ms - 1) := by
  obtain ⟨hle, hlt, hgt⟩ := bisect_right_spec starts pos_ms hsorted
  unfold rightmost_cue_idx
  rw [filter_range_eq_range _ starts.length (bisect_right starts pos_ms)
    hle ?hiff]
  case hiff =>
    intro i hi
    simp only [decide_eq_true_eq]
    constructor
    · intro hle2
      by_contra hnot
      exact absurd hle2 (not_le.mpr (hgt i (by omega) hi))
    · exact fun h => hlt i h
  rcases Nat.eq_zero_or_pos (bisect_right starts pos_ms) with hz | hpos
  · simp [hz]
  · have hr : bisect_right starts pos_ms =
        (bisect_right starts pos_ms - 1) + 1 := by
      omega
    rw [if_neg (by omega), hr, List.range_succ, List.getLast?_concat,
      Nat.add_sub_cancel]

/-- C2: on a cue list sorted by start time with one text per cue,
`update_media_pos` displays exactly the spec's `lookup`: the text of the
rightmost cue whose `start_ms ≤ position_ms`, the first cue's text when the
position precedes all cues, and the empty string when no cues exist;
moreover (second conjunct, for strictly increasing cue times) a lookup
exactly at a cue's `start_ms` returns that cue's text, not the previous
one. -/
theorem C2_lookup (starts : List Int) (texts : List String) (pos_ms : Int)
    (hsorted : List.Sorted (· ≤ ·) starts)
    (hlen : starts.length = texts.length) :
    update_media_pos starts texts pos_ms = lookup_spec starts texts pos_ms ∧
    (List.Sorted (· < ·) starts →
      ∀ i, ∀ h : i < starts.length,
        update_media_pos starts texts (starts.get ⟨i, h⟩) =
          texts.getD i "") := by
  constructor
  · unfold update_media_pos lookup_spec
    by_cases hemp : texts.isEmpty
    · simp [hemp]
    · simp only [hemp, Bool.false_eq_true, if_false]
      rw [rightmost_cue_idx_eq starts pos_ms hsorted]
      rcases Nat.eq_zero_or_pos (bisect_right starts pos_ms) with hz | hpos
      · rw [if_pos hz, hz]
        norm_num
      · rw [if_neg (by omega)]
        have htn : (max ((bisect_right starts pos_ms : Int) - 1) 0).toNat
            = bisect_right starts pos_ms - 1 := by omega
        rw [htn]
  · intro hstrict i h
    obtain ⟨hle, hlt, hgt⟩ :=
      bisect_right_spec starts (starts.get ⟨i, h⟩) hsorted
    have hgetd : starts.getD i 0 = starts.get ⟨i, h⟩ := by
      rw [List.getD_eq_getElem _ _ h]
      rfl
    have h1 : i < bisect_right starts (starts.get ⟨i, h⟩) := by
      by_contra hc
      have := hgt i (by omega) h
      rw [hgetd] at this
      exact lt_irrefl _ this
    have h2 : bisect_right starts (starts.get ⟨i, h⟩) ≤ i + 1 := by
      by_contra hc
      push_neg at hc
      have hlen2 : i + 1 < starts.length := by omega
      have hle2 := hlt (i + 1) (by omega)
      have hstep : starts.get ⟨i, h⟩ < starts.getD (i + 1) 0 := by
        rw [List.getD_eq_getElem _ _ hlen2]
        exact List.pairwise_iff_getElem.mp hstrict i (i + 1) h hlen2
          (by omega)
      exact absurd hle2 (not_le.mpr hstep)
    have hr : bisect_right starts (starts.get ⟨i, h⟩) = i + 1 := by omega
    have hempf : texts.isEmpty = false := by
      rcases texts with _ | ⟨t, ts⟩
      · exact absurd (hlen ▸ h) (by simp)
      · rfl
    unfold update_media_pos
    rw [hempf]
    simp only [Bool.false_eq_true, if_false, hr]
    have htn : ((((i + 1 : Nat) : Int) - 1) ⊔ 0).toNat = i := by
      push_cast
      omega
    rw [htn]

/-- C2 witness: the lookup refinement on the concrete timeline
(10, a) (20, b) (30, c) polled at 20 — exactly at a cue start — returning
that cue's text. -/
theorem C2_lookup_witness :
    update_media_pos [10, 20, 30] ["a", "b", "c"] 20 =
      lookup_spec [10, 20, 30] ["a", "b", "c"] 20 ∧
    update_media_pos [10, 20, 30] ["a", "b", "c"] 20 =
      ["a", "b", "c"].getD 1 "" := by
  have h := C2_lookup [10, 20, 30] ["a", "b", "c"] 20 (by decide) (by decide)
  refine ⟨h.1, ?_⟩
  exact h.2 (by decide) 1 (by norm_num)

/-! ## C3: three toggles return the marker to Empty -/

/-- C3 counterexample: the period-3 toggle cycle fails both for captures at
position 0 and for non-empty starting states.  Starting `Empty`, toggling at
positions 0, 5, 7 ends in the marker (5, 7), not `Empty` — the capture at 0
leaves `pos_loop_a = 0`, which the truthiness guards treat as unset.
Starting from the one-marker state (5, None), toggling at 7, 9, 3 ends at
(3, None), not `Empty`. -/
theorem C3_counterexample :
    ((set_ab_loop 7 (set_ab_loop 5 (set_ab_loop 0 LoopState.empty).1).1).1 ≠
      LoopState.empty) ∧
    ((set_ab_loop 3 (set_ab_loop 9 (set_ab_loop 7 ⟨some 5, none⟩).1).1).1 ≠
      LoopState.empty) := by
  decide

/-- C3 (amended): starting from the `Empty` marker, for every three toggle
positions with the first two strictly positive, the state cycles
Empty → (p1, None) → (p1, p2) → Empty, the second toggle also issuing the
seek back to p1; in particular three toggles return the marker to `Empty`. -/
theorem C3_toggle_cycle (p1 p2 p3 : Int) (h1 : 0 < p1) (h2 : 0 < p2) :
    (set_ab_loop p1 LoopState.empty).1 = ⟨some p1, none⟩ ∧
    set_ab_loop p2 ⟨some p1, none⟩ = (⟨some p1, some p2⟩, some p1) ∧
    (set_ab_loop p3 ⟨some p1, some p2⟩).1 = LoopState.empty := by
  refine ⟨?_, ?_, ?_⟩ <;>
    simp [set_ab_loop, truthy, LoopState.empty, h1.ne', h2.ne']

/-- C3 witness: the cycle at the spec's example positions 10000 and 20000
(third toggle at 30000). -/
theorem C3_toggle_cycle_witness :
    (set_ab_loop 10000 LoopState.empty).1 = ⟨some 10000, none⟩ ∧
    set_ab_loop 20000 ⟨some 10000, none⟩ = (⟨some 10000, some 20000⟩, some 10000) ∧
    (set_ab_loop 30000 ⟨some 10000, some 20000⟩).1 = LoopState.empty :=
  C3_toggle_cycle 10000 20000 30000 (by decide) (by decide)

/-! ## C4: adjust shifts both markers, preserving the distance -/

/-- C4 counterexample: in the `Full` state (5, 0) — both markers present,
`posB = 0` — `adjust(100)` is a no-op because the guard
`if self.pos_loop_b:` tests truthiness: the markers are not shifted to
(105, 100) as the claim requires. -/
theorem C4_counterexample :
    adjust_ab_loop 100 ⟨some 5, some 0⟩ = ⟨some 5, some 0⟩ ∧
    (⟨some 5, some 0⟩ : LoopState) ≠ ⟨some 105, some 100⟩ := by
  decide

/-- C4 (amended): in a `Full` state with `posB ≠ 0`, `adjust(offset_ms)`
shifts both markers by `offset_ms`, preserving `posB - posA` exactly for
every offset; it is a no-op in the `Empty` state, in every one-marker state,
and in a `Full` state with `posB = 0`. -/
theorem C4_adjust (a b offset_ms : Int) (hb : b ≠ 0) :
    adjust_ab_loop offset_ms ⟨some a, some b⟩ =
      ⟨some (a + offset_ms), some (b + offset_ms)⟩ ∧
    (b + offset_ms) - (a + offset_ms) = b - a ∧
    adjust_ab_loop offset_ms LoopState.empty = LoopState.empty ∧
    (∀ a0 : Int, adjust_ab_loop offset_ms ⟨some a0, none⟩ = ⟨some a0, none⟩) ∧
    (∀ a0 : Int, adjust_ab_loop offset_ms ⟨some a0, some 0⟩ = ⟨some a0, some 0⟩) := by
  refine ⟨?_, by ring, ?_, ?_, ?_⟩ <;>
    simp [adjust_ab_loop, truthy, LoopState.empty, hb]

/-- C4 witness: the amended adjust behavior at the marker (10000, 20000)
with offset 500. -/
theorem C4_adjust_witness :
    adjust_ab_loop 500 ⟨some 10000, some 20000⟩ =
      ⟨some (10000 + 500), some (20000 + 500)⟩ ∧
    ((20000 : Int) + 500) - (10000 + 500) = 20000 - 10000 ∧
    adjust_ab_loop 500 LoopState.empty = LoopState.empty ∧
    (∀ a0 : Int, adjust_ab_loop 500 ⟨some a0, none⟩ = ⟨some a0, none⟩) ∧
    (∀ a0 : Int, adjust_ab_loop 500 ⟨some a0, some 0⟩ = ⟨some a0, some 0⟩) :=
  C4_adjust 10000 20000 500 (by decide)

/-! ## C5: markers clamped to [0, duration] after adjustment -/

/-- C5 counterexample: `adjust(-100)` on the marker (50, 1000) yields
`posA = -50 < 0` — `adjust_ab_loop` performs no clamping, so the adjusted
markers are not confined to `[0, duration]` for any duration. -/
theorem C5_counterexample :
    adjust_ab_loop (-100) ⟨some 50, some 1000⟩ = ⟨some (-50), some 900⟩ ∧
    ¬ (0 ≤ (-50 : Int)) := by
  decide

/-- C5 (amended): `adjust_ab_loop` applies no clamping at all: in a `Full`
state with `posB ≠ 0`, whenever `posA + offset_ms < 0` the resulting `posA`
is exactly `posA + offset_ms`, a value below 0 and hence outside
`[0, duration]`. -/
theorem C5_adjust_unclamped (a b offset_ms : Int) (hb : b ≠ 0)
    (hneg : a + offset_ms < 0) :
    ∃ v, (adjust_ab_loop offset_ms ⟨some a, some b⟩).pos_loop_a = some v ∧
      v < 0 := by
  refine ⟨a + offset_ms, ?_, hneg⟩
  simp [adjust_ab_loop, truthy, hb]

/-- C5 witness: the unclamped result at marker (50, 1000) with offset -100. -/
theorem C5_adjust_unclamped_witness :
    ∃ v, (adjust_ab_loop (-100) ⟨some 50, some 1000⟩).pos_loop_a = some v ∧
      v < 0 :=
  C5_adjust_unclamped 50 1000 (-100) (by decide) (by decide)

/-! ## C7: seek clamps to [0, duration] -/

/-- C7 counterexample: a progress-bar seek request of -500 ms is forwarded
to the engine unchanged by `set_media_position`, not clamped to
`min(max(-500, 0), duration) = 0`. -/
theorem C7_counterexample :
    set_media_position (-500) = -500 ∧
    seek_clamped_spec (-500) 180000 = 0 ∧ ((-500 : Int) ≠ 0) := by
  refine ⟨rfl, ?_, by decide⟩
  rfl

/-- C7 (amended): `set_media_position` forwards the requested position to
the engine unclamped; clamping to `[0, duration]` happens only in the
relative navigation `navigate_media`, whose result stays within
`[0, duration]` whenever the current position lies in that interval. -/
theorem C7_seek_clamping (ms position_ms duration_ms : Int)
    (h0 : 0 ≤ position_ms) (hd : position_ms ≤ duration_ms) :
    set_media_position position_ms = position_ms ∧
    0 ≤ navigate_media ms position_ms duration_ms ∧
    navigate_media ms position_ms duration_ms ≤ duration_ms := by
  refine ⟨rfl, ?_, ?_⟩ <;> unfold navigate_media <;> split <;> omega

/-- C7 witness: forwarding and navigation clamping at position 5000 in a
180000 ms track, with a -7000 ms relative move. -/
theorem C7_seek_clamping_witness :
    set_media_position 5000 = 5000 ∧
    0 ≤ navigate_media (-7000) 5000 180000 ∧
    navigate_media (-7000) 5000 180000 ≤ 180000 :=
  C7_seek_clamping (-7000) 5000 180000 (by decide) (by decide)

/-! ## C10: a 0-valued marker is treated as unset by every operation -/

/-- C10 counterexample: `save_ab_loop` tests `self.pos_loop_b is None`, not
truthiness, so `posB = 0` does not disable clip export: the handler proceeds
(returning the slice command), unlike with `posB = None` where it returns
early. -/
theorem C10_counterexample :
    save_ab_loop ⟨some 5, some 0⟩ ≠ none ∧
    save_ab_loop ⟨some 5, none⟩ = none := by
  decide

/-- C10 (amended): a 0-valued marker is treated as unset by the toggle
(capturing posA at position 0 leaves the next toggle behaving as in the
`Empty` state), by loop enforcement, and by adjust — but not by clip export,
whose `is None` guard lets `posB = 0` through. -/
theorem C10_zero_marker (a position_ms duration_ms offset_ms : Int) :
    set_ab_loop position_ms ⟨some 0, none⟩ =
      set_ab_loop position_ms LoopState.empty ∧
    qmp_position_changed ⟨some a, some 0⟩ position_ms duration_ms = none ∧
    adjust_ab_loop offset_ms ⟨some a, some 0⟩ = ⟨some a, some 0⟩ ∧
    save_ab_loop ⟨some a, some 0⟩ = some (some a, 0) := by
  refine ⟨?_, ?_, ?_, ?_⟩ <;>
    simp [set_ab_loop, qmp_position_changed, adjust_ab_loop, save_ab_loop,
      truthy, LoopState.empty]

/-! ## C6: a successful load clears the loop marker -/

/-- C6 counterexample: `load_mp3` itself never touches the loop markers.
In `envAll` — file readable, sibling cue file parsing to one kept cue,
decoding succeeding — loading `b.mp3` over the state `sLoaded`, whose
marker is fully set to (5, 7), completes successfully yet returns with the
marker still (5, 7), not cleared. -/
theorem C6_counterexample :
    load_mp3 envAll "b.mp3" sLoaded =
      .ok { path_media := "b.mp3", mp3_data := some 1, player_media := some 1,
            pos_loop_a := some 5, pos_loop_b := some 7,
            lyrics_starts := [0], lyrics_texts := ["x"] } ∧
    (some (5 : Int) ≠ none) := by
  exact ⟨rfl, by decide⟩

/-- C6 (amended): `load_mp3` leaves the loop marker exactly as it found it
(whether the load succeeds, fails to decode, or is a missing-file no-op);
the marker is cleared by `stop`, which the interactive load paths
(`open_mp3`, `load_recent_mp3`) invoke before `load_mp3`, so a load reached
through them ends with both markers unset. -/
theorem C6_load_markers (env : Env) (path : String) (s : PlayerState) :
    (except_state (load_mp3 env path s)).pos_loop_a = s.pos_loop_a ∧
    (except_state (load_mp3 env path s)).pos_loop_b = s.pos_loop_b ∧
    (except_state (load_mp3 env path (stop s))).pos_loop_a = none ∧
    (except_state (load_mp3 env path (stop s))).pos_loop_b = none := by
  have key : ∀ t : PlayerState,
      (except_state (load_mp3 env path t)).pos_loop_a = t.pos_loop_a ∧
      (except_state (load_mp3 env path t)).pos_loop_b = t.pos_loop_b := by
    intro t
    unfold load_mp3
    cases hf : env.isfile path
    · simp [except_state]
    · cases hv : read_vtt env (vtt_path path) with
      | error lyr => simp [hv, except_state]
      | ok lyr => cases hd : env.decode path <;> simp [hv, hd, except_state]
  refine ⟨(key s).1, (key s).2, ?_, ?_⟩
  · rw [(key (stop s)).1]; rfl
  · rw [(key (stop s)).2]; rfl

/-! ## C8: decode failure leaves the prior track untouched -/

/-- C8 counterexample: in `envFail` decoding raises, yet loading `b.mp3`
over the prior track `a.mp3` (state `sPrior`) escapes with `path_media`
already set to `b.mp3` and the lyric timeline already replaced by
`b.vtt`'s cues — the current path and timeline are not left as they were. -/
theorem C8_counterexample :
    load_mp3 envFail "b.mp3" sPrior =
      .error { path_media := "b.mp3", mp3_data := some 42,
               player_media := some 42,
               pos_loop_a := none, pos_loop_b := none,
               lyrics_starts := [0], lyrics_texts := ["x"] } ∧
    ("b.mp3" ≠ "a.mp3") := by
  exact ⟨rfl, by decide⟩

/-- C8 (amended): when the file exists but decoding fails — or `read_vtt`
itself raises first — `load_mp3` raises with `path_media` and the lyric
timeline already overwritten by the new path's values (the attribute state
`vtt_result` of the `read_vtt` call), while the decoded audio (`mp3_data`),
the player media and the loop markers are untouched. -/
theorem C8_decode_failure (env : Env) (path : String) (s : PlayerState)
    (hfile : env.isfile path = true) (hdec : env.decode path = none) :
    load_mp3 env path s =
      .error { s with
               path_media := path,
               lyrics_starts := (vtt_result (read_vtt env (vtt_path path))).1,
               lyrics_texts := (vtt_result (read_vtt env (vtt_path path))).2 } := by
  unfold load_mp3
  rw [hfile]
  cases hv : read_vtt env (vtt_path path) with
  | error lyr => simp [vtt_result]
  | ok lyr => simp [hdec, vtt_result]

/-- C8 witness: the decode-failure outcome at the concrete environment
`envFail`, path `b.mp3` and prior state `sPrior`. -/
theorem C8_decode_failure_witness :
    load_mp3 envFail "b.mp3" sPrior =
      .error { sPrior with
               path_media := "b.mp3",
               lyrics_starts :=
                 (vtt_result (read_vtt envFail (vtt_path "b.mp3"))).1,
               lyrics_texts :=
                 (vtt_result (read_vtt envFail (vtt_path "b.mp3"))).2 } :=
  C8_decode_failure envFail "b.mp3" sPrior rfl rfl

/-! ## C9: recent-files list invariants -/

/-- One recent-files update keeps the list duplicate-free. -/
theorem touch_recent_nodup (files : List String) (path : String)
    (h : files.Nodup) : (touch_recent files path).Nodup := by
  apply List.Sublist.nodup (List.take_sublist _ _)
  refine List.nodup_cons.mpr ⟨?_, h.erase path⟩
  intro hmem
  exact ((h.mem_erase_iff).mp hmem).1 rfl

/-- One recent-files update never produces more than `max_recent_files`
entries. -/
theorem touch_recent_length_le (files : List String) (path : String) :
    (touch_recent files path).length ≤ max_recent_files := by
  simp [touch_recent, List.length_take]

/-- The recent-files invariant is preserved by any sequence of updates. -/
theorem foldl_touch_recent_invariant (loads : List String) :
    ∀ init : List String, init.Nodup → init.length ≤ max_recent_files →
      (loads.foldl touch_recent init).Nodup ∧
      (loads.foldl touch_recent init).length ≤ max_recent_files := by
  induction loads with
  | nil => intro init h1 h2; exact ⟨h1, h2⟩
  | cons p rest ih =>
      intro init h1 _
      exact ih (touch_recent init p) (touch_recent_nodup init p h1)
        (touch_recent_length_le init p)

/-- C9: starting from an empty list, any sequence of track loads leaves the
recent-files list duplicate-free and of length at most 10; re-inserting a
path already present in a duplicate-free list within capacity moves it to
the front without changing the length. -/
theorem C9_recent_files :
    (∀ loads : List String,
      (loads.foldl touch_recent []).Nodup ∧
      (loads.foldl touch_recent []).length ≤ max_recent_files) ∧
    (∀ files : List String, ∀ path : String,
      files.Nodup → path ∈ files → files.length ≤ max_recent_files →
      (touch_recent files path).length = files.length ∧
      (touch_recent files path).head? = some path) := by
  constructor
  · intro loads
    exact foldl_touch_recent_invariant loads [] List.nodup_nil (by simp)
  · intro files path _ hmem hlen
    have hpos : 0 < files.length := List.length_pos_of_mem hmem
    have herase := List.length_erase_of_mem hmem
    constructor
    · simp only [touch_recent, List.length_take, List.length_cons, herase,
        max_recent_files] at *
      omega
    · have h10 : max_recent_files = 9 + 1 := rfl
      simp [touch_recent, h10, List.take_succ_cons]

/-- C9 witness: the fold invariants on the load sequence `[x, b, x]` and the
re-insert behavior on the concrete list `[a, b, c]` with `b` re-loaded. -/
theorem C9_recent_files_witness :
    ((["x", "b", "x"].foldl touch_recent []).Nodup ∧
      (["x", "b", "x"].foldl touch_recent []).length ≤ max_recent_files) ∧
    ((touch_recent ["a", "b", "c"] "b").length =
        (["a", "b", "c"] : List String).length ∧
      (touch_recent ["a", "b", "c"] "b").head? = some "b") :=
  ⟨C9_recent_files.1 ["x", "b", "x"],
   C9_recent_files.2 ["a", "b", "c"] "b" (by decide) (by decide) (by decide)⟩

end Mp3Player
